import Mathlib

/-!
Shallow embedding of the conflict-marker-checker core: JavaScript string
primitives used by the code, the domain model (conflict markers, file
status, changed files), the marker classifier, the patch/content scanners,
the source-selection logic, the file-eligibility rule, and the run-level
aggregation, together with theorems settling the specification claims.
-/

/-! ## JavaScript string primitives, modelled over `List Char` -/

/-- JS `String.prototype.trimStart`: strip leading whitespace only. -/
def trimStart (s : String) : String := ⟨s.data.dropWhile Char.isWhitespace⟩

/-- JS `s.startsWith(p)`: `p` is a prefix of `s`. -/
def startsWithStr (s p : String) : Bool := p.data.isPrefixOf s.data

/-- JS `String.prototype.trim`: strip leading and trailing whitespace. -/
def jsTrim (s : String) : String :=
  ⟨(((s.data.dropWhile Char.isWhitespace).reverse.dropWhile Char.isWhitespace)).reverse⟩

/-- Split a character list at every occurrence of `sep` (JS `split` keeps
empty segments and yields one more segment than separators). -/
def splitOnChar (sep : Char) : List Char → List (List Char)
  | [] => [[]]
  | c :: cs =>
    match splitOnChar sep cs with
    | [] => [[]]
    | l :: ls => if c = sep then [] :: l :: ls else (c :: l) :: ls

/-- JS `content.split('\n')`. -/
def splitLines (s : String) : List String := (splitOnChar '\n' s.data).map String.mk

/-- Substring occurrence test on character lists (JS `includes` semantics,
case-sensitive). -/
def includesAux (needle : List Char) : List Char → Bool
  | [] => needle.isEmpty
  | c :: cs => needle.isPrefixOf (c :: cs) || includesAux needle cs

/-- JS `s.includes(sub)`: case-sensitive substring containment. -/
def includesStr (s sub : String) : Bool := includesAux sub.data s.data

/-- JS `String.prototype.toLowerCase` (ASCII range, which covers every
status string the code compares against). -/
def toLowerStr (s : String) : String := ⟨s.data.map Char.toLower⟩

/-- JS `s.substring(1)`: drop the first character. -/
def dropFirst (s : String) : String := ⟨s.data.drop 1⟩

/-- Truthiness of a JS `string | undefined` value: `undefined` and the
empty string are falsy, every other string is truthy. -/
def strTruthy : Option String → Bool
  | none => false
  | some s => s ≠ ""

/-! ## Domain model (src/domains) -/

/-- Embeds `CONFLICT_MARKERS` from `conflictMarker.ts`, in source order. -/
def CONFLICT_MARKERS : List String := ["<<<<<<<", ">>>>>>>", "======="]

/-- Embeds the `ConflictMarker` record: 1-based line number (0 when scanned
from a patch), trimmed line content, and the matched marker token. -/
structure ConflictMarker where
  lineNumber : Nat
  content : String
  markerType : String
deriving DecidableEq, Repr

/-- Embeds `createConflictMarker`. -/
def createConflictMarker (lineNumber : Nat) (content : String)
    (markerType : String) : ConflictMarker :=
  ⟨lineNumber, content, markerType⟩

/-- Embeds the `FileStatus` union type from `fileStatus.ts`. -/
inductive FileStatus
  | added | modified | removed | renamed | copied | changed | unchanged
deriving DecidableEq, Repr

/-- Embeds `fileStatusFromString`: `switch (value.toLowerCase())` with
default case `unchanged`. -/
def fileStatusFromString (value : String) : FileStatus :=
  let v := toLowerStr value
  if v = "added" then .added
  else if v = "modified" then .modified
  else if v = "removed" then .removed
  else if v = "renamed" then .renamed
  else if v = "copied" then .copied
  else if v = "changed" then .changed
  else if v = "unchanged" then .unchanged
  else .unchanged

/-- Embeds `isFileRemoved`. -/
def isFileRemoved (status : FileStatus) : Bool := status = .removed

/-- Embeds the `File` record from `file.ts`: name, status, optional patch,
accumulated conflicts. -/
structure File where
  fileName : String
  status : FileStatus
  patch : Option String
  conflicts : List ConflictMarker
deriving DecidableEq, Repr

/-- Embeds `createFile`. -/
def createFile (fileName : String) (status : FileStatus)
    (patch : Option String) (conflicts : List ConflictMarker) : File :=
  ⟨fileName, status, patch, conflicts⟩

/-- Embeds `hasConflicts`: `conflicts.length > 0`. -/
def File.hasConflicts (f : File) : Bool := f.conflicts.length > 0

/-- Embeds `addConflict`: build a new `File` whose conflicts are the old
list with the new conflict appended (`[...conflicts, conflict]`). -/
def File.addConflict (f : File) (c : ConflictMarker) : File :=
  createFile f.fileName f.status f.patch (f.conflicts ++ [c])

/-! ## Marker classifier (fileConflictChecker.ts / conflictMarker.js) -/

/-- Embeds `isConflictMarker`: after `trimStart`, the line starts with one
of the three marker tokens. -/
def isConflictMarker (line : String) : Bool :=
  let trimmedLine := trimStart line
  CONFLICT_MARKERS.any (fun marker => startsWithStr trimmedLine marker)

/-- Embeds `detectMarkerType`: the `for` loop returning the first marker
token the trimmed line starts with, else `null`. -/
def detectMarkerType (line : String) : Option String :=
  let trimmedLine := trimStart line
  CONFLICT_MARKERS.find? (fun marker => startsWithStr trimmedLine marker)

/-! ## File scanner (fileConflictChecker.ts / pullRequestRepository.ts) -/

/-- Constant `UNKNOWN_LINE_NUMBER` from `pullRequestRepository.ts`. -/
def UNKNOWN_LINE_NUMBER : Nat := 0

/-- Embeds `getConflictMarkersInContent`: scan every line of the full
content, 1-based line numbers. -/
def getConflictMarkersInContent (content : String) : List ConflictMarker :=
  let lines := splitLines content
  lines.enum.foldl (fun conflictMarkers p =>
    if isConflictMarker p.2 then
      match detectMarkerType p.2 with
      | some markerType =>
        conflictMarkers ++ [createConflictMarker (p.1 + 1) (jsTrim p.2) markerType]
      | none => conflictMarkers
    else conflictMarkers) []

/-- Embeds `detectConflictsInFile`: same scan as
`getConflictMarkersInContent`, threaded through `addConflict`. -/
def detectConflictsInFile (file : File) (content : String) : File :=
  let lines := splitLines content
  lines.enum.foldl (fun updatedFile p =>
    if isConflictMarker p.2 then
      match detectMarkerType p.2 with
      | some markerType =>
        updatedFile.addConflict (createConflictMarker (p.1 + 1) (jsTrim p.2) markerType)
      | none => updatedFile
    else updatedFile) file

/-- Embeds `getConflictMarkersInPatch`: only added lines (leading `+`, not
the `+++` header) are classified, on content with the `+` stripped, with
sentinel line number. -/
def getConflictMarkersInPatch (patch : String) : List ConflictMarker :=
  let lines := splitLines patch
  lines.foldl (fun conflicts line =>
    if startsWithStr line "+" && !(startsWithStr line "+++") then
      let lineContent := dropFirst line
      if isConflictMarker lineContent then
        match detectMarkerType lineContent with
        | some markerType =>
          conflicts ++
            [createConflictMarker UNKNOWN_LINE_NUMBER (jsTrim lineContent) markerType]
        | none => conflicts
      else conflicts
    else conflicts) []

/-- Embeds `detectConflictsInPatch`: `if (!file.patch) return file`, then
the same added-line scan threaded through `addConflict` with sentinel line
number 0. -/
def detectConflictsInPatch (file : File) : File :=
  if !(strTruthy file.patch) then file
  else
    let lines := splitLines (file.patch.getD "")
    lines.foldl (fun updatedFile line =>
      if startsWithStr line "+" && !(startsWithStr line "+++") then
        let lineContent := dropFirst line
        if isConflictMarker lineContent then
          match detectMarkerType lineContent with
          | some markerType =>
            updatedFile.addConflict (createConflictMarker 0 (jsTrim lineContent) markerType)
          | none => updatedFile
        else updatedFile
      else updatedFile) file

/-- Embeds `getConflictMarkers` from `pullRequestRepository.ts`: prefer the
patch when truthy, otherwise call the optional content fetcher (modelled as
a function from file name to `string | null`) and scan the content when it
is truthy; otherwise no markers. -/
def getConflictMarkers (fileName : String) (patch : Option String)
    (getFileContent : Option (String → Option String)) : List ConflictMarker :=
  if strTruthy patch then
    getConflictMarkersInPatch (patch.getD "")
  else
    match getFileContent with
    | some fetch =>
      match fetch fileName with
      | some content => if content ≠ "" then getConflictMarkersInContent content else []
      | none => []
    | none => []

/-! ## File eligibility and run aggregation (pullRequestConflictChecker.ts) -/

/-- Embeds `shouldCheckFile`: removed files are never checked; otherwise a
file is checked unless its name contains one of the exclude patterns. -/
def shouldCheckFile (file : File) (excludePatterns : List String) : Bool :=
  if isFileRemoved file.status then false
  else !(excludePatterns.any (fun pattern => includesStr file.fileName pattern))

/-- Outcome delivered to the output port by
`checkPullRequestForConflicts`. -/
structure RunOutcome where
  failureMessage : Option String
  conflictsFound : Bool
  conflictedFiles : List String
deriving DecidableEq, Repr

/-- Embeds the file loop of `checkPullRequestForConflicts`: skip excluded
files, fetch content (modelled as `File → string | null`), scan, and push
the file name when the scanned file has conflicts. -/
def collectConflictedFiles (files : List File) (getContent : File → Option String)
    (excludePatterns : List String) : List String :=
  files.foldl (fun conflictedFiles file =>
    if !(shouldCheckFile file excludePatterns) then conflictedFiles
    else
      match getContent file with
      | some content =>
        let checked := detectConflictsInFile file content
        if checked.hasConflicts then conflictedFiles ++ [checked.fileName]
        else conflictedFiles
      | none => conflictedFiles) []

/-- Per-line emission function of `getConflictMarkersInContent` (the body
of its loop, as a function from an indexed line to an optional conflict):
used to characterize the scan. -/
def contentLineScan (p : Nat × String) : Option ConflictMarker :=
  if isConflictMarker p.2 then
    (detectMarkerType p.2).map
      (fun markerType => createConflictMarker (p.1 + 1) (jsTrim p.2) markerType)
  else none

/-- Per-line emission function of `getConflictMarkersInPatch` (the body of
its loop, as a function from a patch line to an optional conflict). -/
def patchLineScan (line : String) : Option ConflictMarker :=
  if startsWithStr line "+" && !(startsWithStr line "+++") then
    if isConflictMarker (dropFirst line) then
      (detectMarkerType (dropFirst line)).map
        (fun markerType =>
          createConflictMarker UNKNOWN_LINE_NUMBER (jsTrim (dropFirst line)) markerType)
    else none
  else none

/-- Predicate describing when the run loop records a file as conflicted:
the file is eligible, its content was fetched, and the scanned file has at
least one conflict occurrence. -/
def conflictedAfterScan (excludePatterns : List String)
    (getContent : File → Option String) (file : File) : Bool :=
  shouldCheckFile file excludePatterns &&
    (match getContent file with
     | some content => (detectConflictsInFile file content).hasConflicts
     | none => false)

/-- The status strings the `switch` in `fileStatusFromString` recognizes. -/
def recognizedStatusStrings : List String :=
  ["added", "modified", "removed", "renamed", "copied", "changed", "unchanged"]

/-- Content source answering every file with the same text (used to
instantiate run-level theorems on concrete inputs). -/
def constContent (content : String) : File → Option String := fun _ => some content

/-- Content fetcher answering every file name with the same text (used to
instantiate source-selection theorems on concrete inputs). -/
def constFetch (content : String) : String → Option String := fun _ => some content

/-- Embeds the result-reporting tail of `checkPullRequestForConflicts`:
failure with both outputs set when any file conflicted, success outputs
otherwise. -/
def checkPullRequestForConflicts (files : List File)
    (getContent : File → Option String) (excludePatterns : List String) : RunOutcome :=
  let conflictedFiles := collectConflictedFiles files getContent excludePatterns
  if conflictedFiles.length > 0 then
    { failureMessage :=
        some ("Found conflict markers in " ++ toString conflictedFiles.length ++ " file(s)"),
      conflictsFound := true,
      conflictedFiles := conflictedFiles }
  else
    { failureMessage := none, conflictsFound := false, conflictedFiles := [] }

/-! ## Helper lemmas -/

theorem detectMarkerType_isSome (line : String) :
    (detectMarkerType line).isSome = isConflictMarker line := by
  unfold detectMarkerType isConflictMarker CONFLICT_MARKERS
  cases h1 : startsWithStr (trimStart line) "<<<<<<<" <;>
    cases h2 : startsWithStr (trimStart line) ">>>>>>>" <;>
      cases h3 : startsWithStr (trimStart line) "=======" <;>
        simp [List.find?, List.any, h1, h2, h3]

theorem detectMarkerType_spec (line : String) (m : String)
    (h : detectMarkerType line = some m) :
    m ∈ CONFLICT_MARKERS ∧ startsWithStr (trimStart line) m = true := by
  unfold detectMarkerType at h
  exact ⟨List.mem_of_find?_eq_some h, List.find?_some h⟩

theorem foldl_step_filterMap {α β : Type} (g : α → Option β)
    (step : List β → α → List β)
    (hstep : ∀ acc x, step acc x = acc ++ (g x).toList)
    (l : List α) (acc : List β) :
    l.foldl step acc = acc ++ l.filterMap g := by
  induction l generalizing acc with
  | nil => simp
  | cons x xs ih =>
    rw [List.foldl_cons, hstep, List.filterMap_cons, ih]
    cases hx : g x <;> simp [hx]

theorem foldl_addConflict {α : Type} (g : α → Option ConflictMarker)
    (step : File → α → File)
    (hstep : ∀ f x, step f x = match g x with
      | some c => f.addConflict c
      | none => f)
    (l : List α) (f : File) :
    l.foldl step f = createFile f.fileName f.status f.patch (f.conflicts ++ l.filterMap g) := by
  induction l generalizing f with
  | nil => cases f; simp [createFile]
  | cons x xs ih =>
    rw [List.foldl_cons, hstep, List.filterMap_cons]
    cases hx : g x with
    | none => rw [ih]
    | some c =>
      rw [ih]
      simp [File.addConflict, createFile]

theorem getConflictMarkersInContent_eq (content : String) :
    getConflictMarkersInContent content =
      (splitLines content).enum.filterMap contentLineScan := by
  unfold getConflictMarkersInContent
  refine foldl_step_filterMap contentLineScan _ ?_ _ _ |>.trans (by simp)
  intro acc p
  unfold contentLineScan
  by_cases h : isConflictMarker p.2 = true
  · cases hm : detectMarkerType p.2 <;> simp [h, hm]
  · simp [h]

theorem detectConflictsInFile_eq (file : File) (content : String) :
    detectConflictsInFile file content =
      createFile file.fileName file.status file.patch
        (file.conflicts ++ (splitLines content).enum.filterMap contentLineScan) := by
  unfold detectConflictsInFile
  refine foldl_addConflict contentLineScan _ ?_ _ _
  intro f p
  unfold contentLineScan
  by_cases h : isConflictMarker p.2 = true
  · cases hm : detectMarkerType p.2 <;> simp [h, hm]
  · simp [h]

theorem detectConflictsInFile_conflicts (file : File) (content : String) :
    (detectConflictsInFile file content).conflicts =
      file.conflicts ++ getConflictMarkersInContent content := by
  rw [detectConflictsInFile_eq, getConflictMarkersInContent_eq]
  rfl

theorem detectConflictsInFile_fileName (file : File) (content : String) :
    (detectConflictsInFile file content).fileName = file.fileName := by
  rw [detectConflictsInFile_eq]
  rfl

theorem getConflictMarkersInPatch_eq (patch : String) :
    getConflictMarkersInPatch patch = (splitLines patch).filterMap patchLineScan := by
  unfold getConflictMarkersInPatch
  refine foldl_step_filterMap patchLineScan _ ?_ _ _ |>.trans (by simp)
  intro acc line
  unfold patchLineScan
  cases h1 : startsWithStr line "+" <;> cases h2 : startsWithStr line "+++"
  case false.false => simp [h1]
  case false.true => simp [h1]
  case true.true => simp [h1, h2]
  case true.false =>
    by_cases h : isConflictMarker (dropFirst line) = true
    · cases hm : detectMarkerType (dropFirst line) <;> simp [h1, h2, h, hm]
    · simp [h1, h2, h]

theorem patchLineScan_lineNumber (line : String) (c : ConflictMarker)
    (h : patchLineScan line = some c) : c.lineNumber = 0 := by
  unfold patchLineScan at h
  by_cases hp : (startsWithStr line "+" && !(startsWithStr line "+++")) = true
  · rw [if_pos hp] at h
    by_cases hm : isConflictMarker (dropFirst line) = true
    · rw [if_pos hm] at h
      cases hd : detectMarkerType (dropFirst line) with
      | none => rw [hd] at h; exact Option.noConfusion h
      | some m =>
        rw [hd] at h
        simp at h
        rw [← h]
        rfl
    · rw [if_neg hm] at h
      exact Option.noConfusion h
  · rw [if_neg hp] at h
    exact Option.noConfusion h

theorem filterMap_guard {α β : Type} (p : α → Bool) (f : α → β) (l : List α) :
    l.filterMap (fun x => if p x then some (f x) else none) = (l.filter p).map f := by
  induction l with
  | nil => rfl
  | cons x xs ih =>
    by_cases h : p x = true <;>
      simp [List.filterMap_cons, List.filter_cons, h, ih]

theorem collectConflictedFiles_eq (files : List File)
    (getContent : File → Option String) (excludePatterns : List String) :
    collectConflictedFiles files getContent excludePatterns =
      (files.filter (conflictedAfterScan excludePatterns getContent)).map File.fileName := by
  unfold collectConflictedFiles
  refine (foldl_step_filterMap
    (fun file => if conflictedAfterScan excludePatterns getContent file = true
      then some file.fileName else none) _ ?_ files []).trans ?_
  · intro acc file
    unfold conflictedAfterScan
    cases hs : shouldCheckFile file excludePatterns
    · simp [hs]
    · cases hc : getContent file with
      | none => simp [hs, hc]
      | some content =>
        cases hh : (detectConflictsInFile file content).hasConflicts
        · simp [hs, hc, hh]
        · simp [hs, hc, hh, detectConflictsInFile_fileName]
  · simp [filterMap_guard]

/-! ## Claim theorems -/

/-- Claim C1: for every changed file the orchestrator scans the diff patch
whenever a (non-empty, i.e. present) patch is supplied — the result then
does not depend on the content fetcher at all — and it fetches and scans
the full file content only when no patch is available. -/
theorem sourceSelectionPolicy (fileName : String) (patch : String)
    (getFileContent : Option (String → Option String)) (hp : patch ≠ "") :
    getConflictMarkers fileName (some patch) getFileContent =
      getConflictMarkersInPatch patch ∧
    getConflictMarkers fileName (some patch) getFileContent =
      getConflictMarkers fileName (some patch) none ∧
    (∀ fetch content, getFileContent = some fetch → fetch fileName = some content →
      content ≠ "" →
      getConflictMarkers fileName none getFileContent =
        getConflictMarkersInContent content) := by
  refine ⟨?_, ?_, ?_⟩
  · unfold getConflictMarkers strTruthy
    simp [hp]
  · unfold getConflictMarkers strTruthy
    simp [hp]
  · intro fetch content hf hc hne
    subst hf
    unfold getConflictMarkers strTruthy
    simp [hc, hne]

theorem sourceSelectionPolicy_witness :
    getConflictMarkers "f.ts" (some "+x") none = getConflictMarkersInPatch "+x" ∧
    getConflictMarkers "g.ts" none (some (constFetch "ok")) =
      getConflictMarkersInContent "ok" := by
  constructor
  · exact (sourceSelectionPolicy "f.ts" "+x" none (by decide)).1
  · exact (sourceSelectionPolicy "g.ts" "+x" (some (constFetch "ok")) (by decide)).2.2
      (constFetch "ok") "ok" rfl rfl (by decide)

/-- Claim C2: `isConflictMarker` holds exactly when the line, after
stripping leading whitespace, starts with one of the three marker tokens,
and `detectMarkerType` succeeds exactly when `isConflictMarker` holds,
returning the matched token. -/
theorem markerClassifier (L : String) :
    (isConflictMarker L = true ↔
      (startsWithStr (trimStart L) "<<<<<<<" = true ∨
       startsWithStr (trimStart L) "=======" = true ∨
       startsWithStr (trimStart L) ">>>>>>>" = true)) ∧
    ((detectMarkerType L).isSome = isConflictMarker L) ∧
    (∀ m, detectMarkerType L = some m →
      m ∈ CONFLICT_MARKERS ∧ startsWithStr (trimStart L) m = true) := by
  refine ⟨?_, detectMarkerType_isSome L, fun m hm => detectMarkerType_spec L m hm⟩
  unfold isConflictMarker CONFLICT_MARKERS
  simp [List.any_cons, List.any_nil]
  tauto

theorem markerClassifier_witness :
    "=======" ∈ CONFLICT_MARKERS ∧
    startsWithStr (trimStart "  ======= x") "=======" = true := by
  exact (markerClassifier "  ======= x").2.2 "=======" (by decide)

/-- Claim C3: scanning the empty content yields no occurrences, and the
sample content yields exactly three occurrences at lines 2, 4 and 6 with
the start, separator and end tokens, in line order. -/
theorem scanContentExamples :
    getConflictMarkersInContent "" = [] ∧
    getConflictMarkersInContent "a\n<<<<<<< HEAD\nb\n=======\nc\n>>>>>>> x\nd" =
      [createConflictMarker 2 "<<<<<<< HEAD" "<<<<<<<",
       createConflictMarker 4 "=======" "=======",
       createConflictMarker 6 ">>>>>>> x" ">>>>>>>"] := by
  exact ⟨by decide, by decide⟩

/-- Claim C4: `getConflictMarkersInPatch` is the per-line scan
`patchLineScan` over the split patch; a line starting with `+++` emits
nothing, a line not starting with `+` (context or removed line) emits
nothing, and an added line is classified on its content with the leading
`+` stripped. -/
theorem patchScanAddedLinesOnly (patch : String) :
    getConflictMarkersInPatch patch = (splitLines patch).filterMap patchLineScan ∧
    (∀ line, startsWithStr line "+++" = true → patchLineScan line = none) ∧
    (∀ line, startsWithStr line "+" = false → patchLineScan line = none) ∧
    (∀ line, startsWithStr line "+" = true → startsWithStr line "+++" = false →
      patchLineScan line =
        (detectMarkerType (dropFirst line)).map
          (fun markerType =>
            createConflictMarker UNKNOWN_LINE_NUMBER (jsTrim (dropFirst line))
              markerType)) := by
  refine ⟨getConflictMarkersInPatch_eq patch, ?_, ?_, ?_⟩
  · intro line h
    unfold patchLineScan
    simp [h]
  · intro line h
    unfold patchLineScan
    simp [h]
  · intro line h1 h2
    unfold patchLineScan
    rw [if_pos (by simp [h1, h2])]
    by_cases hm : isConflictMarker (dropFirst line) = true
    · rw [if_pos hm]
    · rw [if_neg hm]
      cases hd : detectMarkerType (dropFirst line) with
      | none => simp
      | some m =>
        have hk := detectMarkerType_isSome (dropFirst line)
        rw [hd] at hk
        simp at hk
        exact absurd hk hm

theorem patchScanAddedLinesOnly_witness :
    patchLineScan "+++ b/file.txt" = none ∧
    patchLineScan " =======" = none ∧
    patchLineScan "+=======" =
      (detectMarkerType (dropFirst "+=======")).map
        (fun markerType =>
          createConflictMarker UNKNOWN_LINE_NUMBER (jsTrim (dropFirst "+======="))
            markerType) := by
  exact ⟨(patchScanAddedLinesOnly "").2.1 "+++ b/file.txt" (by decide),
    (patchScanAddedLinesOnly "").2.2.1 " =======" (by decide),
    (patchScanAddedLinesOnly "").2.2.2 "+=======" (by decide) (by decide)⟩

/-- Claim C5: every occurrence emitted by the patch scanner carries the
sentinel line number 0. -/
theorem patchScanSentinel (patch : String) (occ : ConflictMarker)
    (h : occ ∈ getConflictMarkersInPatch patch) : occ.lineNumber = 0 := by
  rw [getConflictMarkersInPatch_eq] at h
  obtain ⟨line, _, hline⟩ := List.mem_filterMap.mp h
  exact patchLineScan_lineNumber line occ hline

theorem patchScanSentinel_witness :
    (createConflictMarker 0 "=======" "=======").lineNumber = 0 := by
  exact patchScanSentinel "+======="
    (createConflictMarker 0 "=======" "=======") (by decide)

/-- Claim C6: a file is ineligible exactly when its status is `removed` or
its name contains one of the exclusion substrings, and a removed file is
ineligible regardless of its name. -/
theorem fileEligibility (file : File) (excludePatterns : List String) :
    (shouldCheckFile file excludePatterns = false ↔
      (file.status = .removed ∨
        ∃ p ∈ excludePatterns, includesStr file.fileName p = true)) ∧
    (file.status = .removed → shouldCheckFile file excludePatterns = false) := by
  constructor
  · unfold shouldCheckFile isFileRemoved
    by_cases h : file.status = FileStatus.removed
    · simp [h]
    · simp [h, List.any_eq_true]
  · intro h
    unfold shouldCheckFile isFileRemoved
    simp [h]

theorem fileEligibility_witness :
    shouldCheckFile (createFile "a.txt" .removed none []) ["x"] = false := by
  exact (fileEligibility (createFile "a.txt" .removed none []) ["x"]).2 rfl

/-- Claim C7: an unrecognized change-status string normalizes to
`unchanged` (total, never failing), and a file carrying such a status stays
eligible for scanning. -/
theorem unrecognizedStatusNormalizes (s : String)
    (h : toLowerStr s ∉ recognizedStatusStrings) :
    fileStatusFromString s = FileStatus.unchanged ∧
    ∀ fileName patch conflicts,
      shouldCheckFile (createFile fileName (fileStatusFromString s) patch conflicts)
        [] = true := by
  simp only [recognizedStatusStrings, List.mem_cons, List.mem_singleton, not_or] at h
  obtain ⟨h1, h2, h3, h4, h5, h6, h7⟩ := h
  have hs : fileStatusFromString s = FileStatus.unchanged := by
    unfold fileStatusFromString
    simp [h1, h2, h3, h4, h5, h6, h7]
  refine ⟨hs, ?_⟩
  intro fileName patch conflicts
  rw [hs]
  unfold shouldCheckFile isFileRemoved createFile
  simp

theorem unrecognizedStatusNormalizes_witness :
    fileStatusFromString "deleted" = FileStatus.unchanged ∧
    shouldCheckFile (createFile "a.txt" (fileStatusFromString "deleted") none [])
      [] = true := by
  exact ⟨(unrecognizedStatusNormalizes "deleted" (by decide)).1,
    (unrecognizedStatusNormalizes "deleted" (by decide)).2 "a.txt" none []⟩

/-- Claim C8: the run reports failure exactly when some scanned file has an
occurrence; the conflicted-file names are the eligible, fetched,
conflicted files in supplied order; the failure message is set exactly on
failure; and when no file conflicts the run reports success with an empty
list. -/
theorem runAggregation (files : List File) (getContent : File → Option String)
    (excludePatterns : List String) :
    (checkPullRequestForConflicts files getContent excludePatterns).conflictedFiles =
      (files.filter (conflictedAfterScan excludePatterns getContent)).map
        File.fileName ∧
    ((checkPullRequestForConflicts files getContent excludePatterns).conflictsFound
        = true ↔
      ∃ file ∈ files, conflictedAfterScan excludePatterns getContent file = true) ∧
    ((checkPullRequestForConflicts files getContent
        excludePatterns).failureMessage.isSome =
      (checkPullRequestForConflicts files getContent excludePatterns).conflictsFound) ∧
    ((∀ file ∈ files, conflictedAfterScan excludePatterns getContent file = false) →
      checkPullRequestForConflicts files getContent excludePatterns =
        ⟨none, false, []⟩) := by
  have hmap := collectConflictedFiles_eq files getContent excludePatterns
  have hrw : checkPullRequestForConflicts files getContent excludePatterns =
      if (collectConflictedFiles files getContent excludePatterns).length > 0 then
        ⟨some ("Found conflict markers in " ++
            toString (collectConflictedFiles files getContent excludePatterns).length
            ++ " file(s)"),
          true, collectConflictedFiles files getContent excludePatterns⟩
      else ⟨none, false, []⟩ := rfl
  by_cases h : (collectConflictedFiles files getContent excludePatterns).length > 0
  · rw [hrw, if_pos h]
    have hne : files.filter (conflictedAfterScan excludePatterns getContent) ≠ [] := by
      intro hnil
      rw [hmap, hnil] at h
      simp at h
    have hex : ∃ file ∈ files,
        conflictedAfterScan excludePatterns getContent file = true := by
      obtain ⟨f, hf⟩ := List.exists_mem_of_ne_nil _ hne
      exact ⟨f, (List.mem_filter.mp hf).1, (List.mem_filter.mp hf).2⟩
    refine ⟨hmap, by simp [hex], rfl, ?_⟩
    intro hall
    obtain ⟨f, hfmem, hft⟩ := hex
    rw [hall f hfmem] at hft
    exact Bool.noConfusion hft
  · rw [hrw, if_neg h]
    have hlen : (collectConflictedFiles files getContent excludePatterns).length = 0 :=
      Nat.eq_zero_of_not_pos h
    have hnil : files.filter (conflictedAfterScan excludePatterns getContent) = [] := by
      have := hmap ▸ hlen
      simpa using this
    refine ⟨by simp [hnil], ?_, rfl, fun _ => rfl⟩
    constructor
    · intro hft
      exact Bool.noConfusion hft
    · rintro ⟨f, hfmem, hft⟩
      have hmem : f ∈ files.filter (conflictedAfterScan excludePatterns getContent) :=
        List.mem_filter.mpr ⟨hfmem, hft⟩
      rw [hnil] at hmem
      exact absurd hmem (List.not_mem_nil f)

theorem runAggregation_witness :
    checkPullRequestForConflicts [createFile "a.js" .modified none []]
      (constContent "ok") [] = ⟨none, false, []⟩ := by
  exact (runAggregation [createFile "a.js" .modified none []]
    (constContent "ok") []).2.2.2 (by decide)

/-- Claim C9: `addConflict` appends the new occurrence at the end of the
previous list, leaving every other field (and, the embedding being pure,
the input value) unchanged, and a whole content scan only ever appends to
the file's occurrence list. -/
theorem conflictsAppendOnly (f : File) (c : ConflictMarker) (content : String) :
    (File.addConflict f c).conflicts = f.conflicts ++ [c] ∧
    (File.addConflict f c).fileName = f.fileName ∧
    (File.addConflict f c).status = f.status ∧
    (File.addConflict f c).patch = f.patch ∧
    (detectConflictsInFile f content).conflicts =
      f.conflicts ++ getConflictMarkersInContent content ∧
    (detectConflictsInFile f content).fileName = f.fileName := by
  exact ⟨rfl, rfl, rfl, rfl, detectConflictsInFile_conflicts f content,
    detectConflictsInFile_fileName f content⟩

/-- Claim C10: a file whose patch is the empty string is treated as having
no patch: the patch scanner returns it unchanged, and the source-selection
step behaves exactly as with an absent patch (full-content fallback). -/
theorem emptyPatchFallsBack (file : File) (h : file.patch = some "") :
    detectConflictsInPatch file = file ∧
    (∀ fileName getFileContent,
      getConflictMarkers fileName (some "") getFileContent =
        getConflictMarkers fileName none getFileContent) := by
  constructor
  · unfold detectConflictsInPatch
    rw [h]
    simp [strTruthy]
  · intro fileName getFileContent
    unfold getConflictMarkers strTruthy
    simp

theorem emptyPatchFallsBack_witness :
    detectConflictsInPatch (createFile "a.txt" .modified (some "") []) =
      createFile "a.txt" .modified (some "") [] := by
  exact (emptyPatchFallsBack (createFile "a.txt" .modified (some "") []) rfl).1
